import Mathlib

/-!
Shallow embedding of the cooperative single-task executor core of the
learn-rust-async repository: the waker vtable callbacks and the blocking
executor of src/examples/simple_executor.rs, the timer future and its
background worker of src/examples/custom_waker.rs, the coroutine state
machine of src/examples/simple_coroutine.rs, and the counter future of
src/examples/pin_and_poll.rs.
-/

/-- Result of one poll of a future, mirroring std::task::Poll. -/
inductive Poll (α : Type) where
  | Ready (v : α)
  | Pending
deriving DecidableEq

/-- Waiter state of SimpleExecutor: the pair behind the
Arc of a Mutex bool and a Condvar (simple_executor.rs line 102), together with
the Arc strong reference count and the number of notify_one calls issued on the
condition variable (the observable history of the Condvar). -/
structure WakerState where
  refcount : Nat
  woken : Bool
  notifications : Nat
deriving DecidableEq

/-- Vtable callback clone_waker of simple_executor.rs lines 13-21: rebuilds the
Arc from the raw pointer, clones it (bumping the strong count) and forgets the
original, so the net effect is one extra reference-count share. -/
def clone_waker (s : WakerState) : WakerState :=
  { s with refcount := s.refcount + 1 }

/-- Vtable callback wake_waker of simple_executor.rs lines 23-37: under the
mutex it sets the woken flag to true, then calls notify_one on the condvar;
the function ends with a mem::forget of the Arc it rebuilt from the raw
pointer, so the strong count is left unchanged. -/
def wake_waker (s : WakerState) : WakerState :=
  { s with woken := true, notifications := s.notifications + 1 }

/-- Vtable callback wake_by_ref_waker of simple_executor.rs lines 39-48: the
same flag-and-notify body as wake_waker, and the mem::forget leaves the strong
count unchanged (which is correct here, since wake_by_ref does not consume the
handle). -/
def wake_by_ref_waker (s : WakerState) : WakerState :=
  { s with woken := true, notifications := s.notifications + 1 }

/-- Vtable callback drop_waker of simple_executor.rs lines 50-52: drops the Arc
rebuilt from the raw pointer, releasing this handle's share of the strong
count. -/
def drop_waker (s : WakerState) : WakerState :=
  { s with refcount := s.refcount - 1 }

/-- k successive invocations of wake_waker on the waiter state. -/
def wakeN : Nat → WakerState → WakerState
  | 0, s => s
  | k + 1, s => wakeN k (wake_waker s)

/-- Condvar wait loop of block_on (simple_executor.rs lines 174-177): while the
woken flag is false, wait on the condvar.  Each cvar.wait call suspends the
thread and returns with the flag value left by the corresponding wakeup; the
list gives those observed flag values in order.  The result is the number of
cvar.wait calls performed, or none if the flag never becomes true (the thread
blocks forever). -/
def waitLoop : Bool → List Bool → Option Nat
  | true, _ => some 0
  | false, [] => none
  | false, w :: rest => (waitLoop w rest).map (· + 1)

/-- Full Pending branch of block_on (simple_executor.rs lines 169-179): the
condvar wait loop followed by the reset of the woken flag to false for the next
cycle.  Returns the number of cvar.wait calls performed together with the flag
value left behind for the re-poll. -/
def waitStep (woken : Bool) (waits : List Bool) : Option (Nat × Bool) :=
  (waitLoop woken waits).map (fun k => (k, false))

/-- State of a deterministic future under repeated polling: the future state
after k polls starting from s0, the poll function being given in state-passing
style. -/
def pollStates {σ α : Type} (poll : σ → σ × Poll α) (s0 : σ) : Nat → σ
  | 0 => s0
  | k + 1 => (poll (pollStates poll s0 k)).1

/-- The future completes at the n-th re-poll with value v: every poll before
the n-th returns Pending and the n-th returns Ready v. -/
def completesAt {σ α : Type} (poll : σ → σ × Poll α) (s0 : σ) (n : Nat) (v : α) : Prop :=
  (∀ k, k < n → (poll (pollStates poll s0 k)).2 = Poll.Pending) ∧
    (poll (pollStates poll s0 n)).2 = Poll.Ready v

/-- SimpleExecutor's block_on (simple_executor.rs lines 157-185) over a future
given as a state-passing poll function.  On Ready the result is returned; on
Pending the executor runs the condvar wait loop on the woken flag — the
schedule wakes i lists the flag values observed by the cvar.wait calls of the
i-th wait, as arranged by the task's collaborator — and then re-polls with the
flag waitStep left behind.  fuel bounds the number of loop iterations so the
recursion is structural; none means the fuel ran out or a wait blocked
forever. -/
def block_on {σ α : Type} (poll : σ → σ × Poll α) (wakes : Nat → List Bool) :
    Nat → Nat → σ → Bool → Option α
  | 0, _, _, _ => none
  | fuel + 1, i, s, woken =>
    match poll s with
    | (_, Poll.Ready v) => some v
    | (s', Poll.Pending) =>
      match waitStep woken (wakes i) with
      | none => none
      | some (_, woken') => block_on poll wakes fuel (i + 1) s' woken'

/-- Identifier for a Waker clone taken from a poll context (the executor waiter
it is bound to). -/
abbrev Waker := Nat

/-- SharedState of custom_waker.rs lines 19-22: the completion flag and the
most recently stored waker, guarded by one mutex. -/
structure SharedState where
  completed : Bool
  waker : Option Waker
deriving DecidableEq

/-- Completion payload returned by AsyncTimerFuture's poll (custom_waker.rs
line 60). -/
def timerResult : String := "异步操作完成！"

/-- Future::poll for AsyncTimerFuture (custom_waker.rs lines 55-68): under the
mutex, if completed is set return Ready with the fixed payload, else store a
clone of the context's waker (overwriting any previous one) and return
Pending.  cxWaker is the waker carried by the poll context. -/
def AsyncTimerFuture.poll (s : SharedState) (cxWaker : Waker) : SharedState × Poll String :=
  if s.completed then (s, Poll.Ready timerResult)
  else ({ s with waker := some cxWaker }, Poll.Pending)

/-- Atomic events of the background worker closure, recording the order of its
lock operations and its wake invocation. -/
inductive WorkerEvent where
  | acquireLock
  | setCompleted
  | takeWake (taken : Option Waker)
  | invokeWake (w : Waker)
  | releaseLock
deriving DecidableEq

/-- Background worker closure spawned by AsyncTimerFuture::new (custom_waker.rs
lines 33-46): after the sleep it locks the shared state, sets completed to
true, takes the stored waker, and — still inside the scope of the MutexGuard,
which is dropped only when the closure ends — invokes wake on the taken waker
if there was one.  Returns the final shared state together with the ordered
event trace of the closure. -/
def timerWorker (s : SharedState) : SharedState × List WorkerEvent :=
  ({ completed := true, waker := none },
    [WorkerEvent.acquireLock, WorkerEvent.setCompleted, WorkerEvent.takeWake s.waker] ++
      (match s.waker with
        | some w => [WorkerEvent.invokeWake w]
        | none => []) ++
      [WorkerEvent.releaseLock])

/-- Wakers on which a trace invokes wake, in order. -/
def wakesInvoked : List WorkerEvent → List Waker
  | [] => []
  | WorkerEvent.invokeWake w :: rest => w :: wakesInvoked rest
  | _ :: rest => wakesInvoked rest

/-- Scan of a trace that tracks whether the shared lock is held and reports
whether some wake invocation happens while it is. -/
def wakeWhileLockedAux : Bool → List WorkerEvent → Bool
  | _, [] => false
  | _, WorkerEvent.acquireLock :: rest => wakeWhileLockedAux true rest
  | _, WorkerEvent.releaseLock :: rest => wakeWhileLockedAux false rest
  | locked, WorkerEvent.invokeWake _ :: rest => locked || wakeWhileLockedAux locked rest
  | locked, WorkerEvent.setCompleted :: rest => wakeWhileLockedAux locked rest
  | locked, WorkerEvent.takeWake _ :: rest => wakeWhileLockedAux locked rest

/-- Whether some wake invocation in the trace happens while the shared lock is
held. -/
def wakeWhileLocked (tr : List WorkerEvent) : Bool :=
  wakeWhileLockedAux false tr

/-- One step of the shared timer state: either some thread polls the future
(with an arbitrary context waker) or the background worker body runs. -/
inductive TimerStep : SharedState → SharedState → Prop
  | poll (s : SharedState) (w : Waker) : TimerStep s (AsyncTimerFuture.poll s w).1
  | worker (s : SharedState) : TimerStep s (timerWorker s).1

/-- SimpleCoroutine of simple_coroutine.rs lines 6-11. -/
inductive SimpleCoroutine where
  | Unresumed
  | Returned
  | Panicked
deriving DecidableEq

/-- Future::poll for SimpleCoroutine (simple_coroutine.rs lines 16-27): from
Unresumed it moves the state to Returned and returns Ready 42; from Returned or
Panicked it panics, modelled as an Except.error carrying the panic message. -/
def SimpleCoroutine.poll : SimpleCoroutine → Except String (SimpleCoroutine × Poll Int)
  | SimpleCoroutine.Unresumed => Except.ok (SimpleCoroutine.Returned, Poll.Ready 42)
  | SimpleCoroutine.Returned => Except.error "cannot poll after completion"
  | SimpleCoroutine.Panicked => Except.error "cannot poll after panic"

/-- HelloFuture of pin_and_poll.rs lines 9-12: a u32 counter, modelled as a Nat
reduced modulo 2 to the 32nd wherever the counter is written. -/
structure HelloFuture where
  count : Nat
deriving DecidableEq

/-- HelloFuture::new of pin_and_poll.rs lines 15-19. -/
def HelloFuture.new : HelloFuture := { count := 0 }

/-- Future::poll for HelloFuture (pin_and_poll.rs lines 29-44): increments the
u32 counter (wrapping modulo 2 to the 32nd, the release-mode overflow
behaviour of the increment) and returns Ready "Hello" once the counter has
reached 2, Pending otherwise. -/
def HelloFuture.poll (f : HelloFuture) : HelloFuture × Poll String :=
  let c := (f.count + 1) % 2 ^ 32
  if 2 ≤ c then ({ count := c }, Poll.Ready "Hello") else ({ count := c }, Poll.Pending)

/-- State of HelloFuture after n polls. -/
def HelloFuture.pollN (f : HelloFuture) : Nat → HelloFuture
  | 0 => f
  | n + 1 => (HelloFuture.poll (HelloFuture.pollN f n)).1

/-- Shifting the start of the poll iteration by one poll. -/
theorem pollStates_shift {σ α : Type} (poll : σ → σ × Poll α) (s0 : σ) (k : Nat) :
    pollStates poll (poll s0).1 k = pollStates poll s0 (k + 1) := by
  induction k with
  | zero => rfl
  | succ j ih => simp only [pollStates, ih]

/-- The condvar wait loop terminates when the flag is already true or some
wakeup sets it true. -/
theorem waitLoop_isSome (waits : List Bool) :
    ∀ b : Bool, b = true ∨ true ∈ waits → ∃ k, waitLoop b waits = some k := by
  induction waits with
  | nil =>
    intro b hb
    cases b with
    | true => exact ⟨0, rfl⟩
    | false =>
      rcases hb with h | h
      · exact absurd h (by simp)
      · simp at h
  | cons w rest ih =>
    intro b hb
    cases b with
    | true => exact ⟨0, rfl⟩
    | false =>
      have hw : w = true ∨ true ∈ rest := by
        rcases hb with h | h
        · exact absurd h (by simp)
        · rcases List.mem_cons.mp h with h1 | h2
          · exact Or.inl h1.symm
          · exact Or.inr h2
      obtain ⟨k, hk⟩ := ih w hw
      exact ⟨k + 1, by simp [waitLoop, hk]⟩

/-- With the flag already true the wait loop performs no cvar.wait call. -/
theorem waitLoop_true (waits : List Bool) : waitLoop true waits = some 0 := by
  cases waits <;> rfl

/-- Fuel-generic correctness of the executor loop: if the future completes at
the n-th re-poll and a wakeup reaches each of the n waits, block_on returns the
completion value. -/
theorem block_on_aux {σ α : Type} (poll : σ → σ × Poll α) (wakes : Nat → List Bool) :
    ∀ (n : Nat) (s0 : σ) (i0 fuel : Nat) (v : α),
      (∀ k, k < n → (poll (pollStates poll s0 k)).2 = Poll.Pending) →
      (poll (pollStates poll s0 n)).2 = Poll.Ready v →
      (∀ i, i0 ≤ i → i < i0 + n → true ∈ wakes i) →
      n < fuel →
      block_on poll wakes fuel i0 s0 false = some v := by
  intro n
  induction n with
  | zero =>
    intro s0 i0 fuel v _ hready _ hfuel
    cases fuel with
    | zero => omega
    | succ f =>
      have h0 : (poll s0).2 = Poll.Ready v := hready
      cases hps : poll s0 with
      | mk s1 p =>
        rw [hps] at h0
        simp only at h0
        subst h0
        simp only [block_on, hps]
  | succ n ih =>
    intro s0 i0 fuel v hpend hready hwake hfuel
    cases fuel with
    | zero => omega
    | succ f =>
      have h0 : (poll s0).2 = Poll.Pending := hpend 0 (Nat.succ_pos n)
      cases hps : poll s0 with
      | mk s1 p =>
        rw [hps] at h0
        simp only at h0
        subst h0
        simp only [block_on, hps]
        obtain ⟨k, hk⟩ :=
          waitLoop_isSome (wakes i0) false (Or.inr (hwake i0 (le_refl i0) (by omega)))
        have hws : waitStep false (wakes i0) = some (k, false) := by
          simp [waitStep, hk]
        rw [hws]
        apply ih s1 (i0 + 1) f v
        · intro k2 hk2
          have h2 := hpend (k2 + 1) (by omega)
          rw [← pollStates_shift] at h2
          rw [hps] at h2
          exact h2
        · have h3 := hready
          rw [show n + 1 = n + 1 from rfl, ← pollStates_shift] at h3
          rw [hps] at h3
          exact h3
        · intro i hi1 hi2
          exact hwake i (by omega) (by omega)
        · omega

/-- Claim C1: for every future that completes — its poll returns Ready v after
finitely many calls, with a wakeup arranged for each Pending — SimpleExecutor's
block_on returns exactly that value v (it does not fail); and each wait step
waits exactly while the flag is false and leaves the flag reset to false for
the re-poll. -/
theorem block_on_correct {σ α : Type} (poll : σ → σ × Poll α) (wakes : Nat → List Bool)
    (s0 : σ) (n : Nat) (v : α)
    (hcompl : completesAt poll s0 n v)
    (hwake : ∀ i, i < n → true ∈ wakes i) :
    (∀ fuel, n < fuel → block_on poll wakes fuel 0 s0 false = some v) ∧
    (∀ b waits k, waitLoop b waits = some k → waitStep b waits = some (k, false)) := by
  constructor
  · intro fuel hfuel
    exact block_on_aux poll wakes n s0 0 fuel v hcompl.1 hcompl.2
      (fun i _ h2 => hwake i (by omega)) hfuel
  · intro b waits k hk
    simp [waitStep, hk]

/-- Witness for C1 at the concrete counter future, which completes at its
second poll. -/
theorem block_on_correct_witness :
    block_on HelloFuture.poll (fun _ => [true]) 2 0 HelloFuture.new false = some "Hello" :=
  (block_on_correct HelloFuture.poll (fun _ => [true]) HelloFuture.new 1 "Hello"
      ⟨fun k hk => by
          have hk0 : k = 0 := by omega
          subst hk0
          decide,
        by decide⟩
      (fun i _ => List.mem_cons_self true [])).1 2 (by omega)

/-- Every timer-state step preserves a true completed flag: a poll leaves the
flag untouched and the worker sets it true. -/
theorem timerStep_completed {a b : SharedState} (h : TimerStep a b)
    (ha : a.completed = true) : b.completed = true := by
  cases h with
  | poll w => simp [AsyncTimerFuture.poll, ha]
  | worker => rfl

/-- Claim C2: once a poll of the timer future has returned Ready, every poll of
every shared state reachable from there by further polls or worker steps
returns Ready with the same value — never a different value and never Pending —
because the completed flag, once true, is never reset. -/
theorem timer_completed_stable (s t : SharedState) (w : Waker) (v : String)
    (hready : (AsyncTimerFuture.poll s w).2 = Poll.Ready v)
    (hreach : Relation.ReflTransGen TimerStep s t) (w' : Waker) :
    (AsyncTimerFuture.poll t w').2 = Poll.Ready v := by
  cases hs : s.completed with
  | false => simp [AsyncTimerFuture.poll, hs] at hready
  | true =>
    have hv : v = timerResult := by
      simp [AsyncTimerFuture.poll, hs] at hready
      exact hready.symm
    have ht : t.completed = true := by
      induction hreach with
      | refl => exact hs
      | tail hr hstep ih => exact timerStep_completed hstep ih
    simp [AsyncTimerFuture.poll, ht, hv]

/-- Witness for C2 on a completed shared state. -/
theorem timer_completed_stable_witness :
    (AsyncTimerFuture.poll ⟨true, none⟩ 5).2 = Poll.Ready timerResult :=
  timer_completed_stable ⟨true, none⟩ ⟨true, none⟩ 0 timerResult (by decide)
    Relation.ReflTransGen.refl 5

/-- Repeated wakes keep the woken flag true. -/
theorem wakeN_preserves (j : Nat) :
    ∀ t : WakerState, t.woken = true → (wakeN j t).woken = true := by
  induction j with
  | zero => intro t ht; exact ht
  | succ m ih =>
    intro t _
    simp only [wakeN]
    exact ih (wake_waker t) rfl

/-- Claim C3: if wake has been invoked at least once on the waiter state before
the wait step begins, the flag is already true, so the wait step performs zero
cvar.wait calls — it returns immediately (resetting the flag) instead of
blocking, whatever wakeups would have followed: the wakeup is never lost. -/
theorem wake_before_wait_not_lost (s : WakerState) (k : Nat) (hk : 1 ≤ k) :
    (wakeN k s).woken = true ∧
    ∀ waits : List Bool, waitStep (wakeN k s).woken waits = some (0, false) := by
  have hw : (wakeN k s).woken = true := by
    cases k with
    | zero => omega
    | succ m =>
      simp only [wakeN]
      exact wakeN_preserves m (wake_waker s) rfl
  refine ⟨hw, fun waits => ?_⟩
  rw [hw]
  simp [waitStep, waitLoop_true]

/-- Witness for C3: one wake on a fresh waiter state. -/
theorem wake_before_wait_not_lost_witness :
    (wakeN 1 ⟨1, false, 0⟩).woken = true ∧
    waitStep (wakeN 1 ⟨1, false, 0⟩).woken [] = some (0, false) :=
  ⟨(wake_before_wait_not_lost ⟨1, false, 0⟩ 1 (by decide)).1,
    (wake_before_wait_not_lost ⟨1, false, 0⟩ 1 (by decide)).2 []⟩

/-- Claim C4, counterexample: running the worker body on a shared state holding
waker 0 produces a trace whose wake invocation happens while the shared lock is
held — the lock release is the last event of the closure, after the wake, so
the worker does not invoke wake only after releasing the lock. -/
theorem timerWorker_wakes_while_locked :
    wakeWhileLocked (timerWorker ⟨false, some 0⟩).2 = true ∧
    (timerWorker ⟨false, some 0⟩).2 =
      [WorkerEvent.acquireLock, WorkerEvent.setCompleted, WorkerEvent.takeWake (some 0),
        WorkerEvent.invokeWake 0, WorkerEvent.releaseLock] := by
  exact ⟨rfl, rfl⟩

/-- Claim C4, amended: the worker sets completed to true and takes pendingWake
leaving it empty, and invokes wake on the taken handle exactly once if one was
stored — but it does so while still holding SharedCompletion's lock, which is
released only afterwards, as the last event of the closure. -/
theorem timerWorker_spec (s : SharedState) :
    (timerWorker s).1 = { completed := true, waker := none } ∧
    wakesInvoked (timerWorker s).2 = s.waker.toList ∧
    wakeWhileLocked (timerWorker s).2 = s.waker.isSome ∧
    (timerWorker s).2.getLast? = some WorkerEvent.releaseLock := by
  cases s with
  | mk c w =>
    cases w with
    | none => exact ⟨rfl, rfl, rfl, rfl⟩
    | some a => exact ⟨rfl, rfl, rfl, rfl⟩

/-- Claim C5: every poll of the timer future with completed still false stores
the context's waker into the shared state — overwriting any previously stored
one, on every such call — and returns Pending; with completed true it returns
Ready with the fixed payload and leaves the state unchanged. -/
theorem timer_poll_overwrites (s : SharedState) (w : Waker) :
    (s.completed = true → AsyncTimerFuture.poll s w = (s, Poll.Ready timerResult)) ∧
    (s.completed = false →
      AsyncTimerFuture.poll s w = ({ completed := false, waker := some w }, Poll.Pending)) := by
  cases s with
  | mk c wk => cases c <;> simp [AsyncTimerFuture.poll]

/-- Witness for C5: a poll on an uncompleted state already holding waker 7
overwrites it with the context's waker 3. -/
theorem timer_poll_overwrites_witness :
    AsyncTimerFuture.poll ⟨false, some 7⟩ 3 = (⟨false, some 3⟩, Poll.Pending) :=
  (timer_poll_overwrites ⟨false, some 7⟩ 3).2 rfl

/-- Claim C6: advancing the pure state-machine coroutine after it has completed
is a contract violation that fails loudly — the first poll completes with 42
and moves the state to Returned, and polling the Returned state aborts with the
panic message "cannot poll after completion", never silently returning stale or
recomputed data. -/
theorem coroutine_poll_after_completion :
    SimpleCoroutine.poll SimpleCoroutine.Unresumed =
      Except.ok (SimpleCoroutine.Returned, Poll.Ready 42) ∧
    SimpleCoroutine.poll SimpleCoroutine.Returned =
      Except.error "cannot poll after completion" :=
  ⟨rfl, rfl⟩

/-- Claim C7: the consuming wake and the non-consuming wake_by_ref have
identical observable effect on the waiter state — both set the flag to true
and issue exactly one more notify_one on the condition variable. -/
theorem wake_eq_wake_by_ref (s : WakerState) :
    wake_waker s = wake_by_ref_waker s ∧
    (wake_waker s).woken = true ∧
    (wake_waker s).notifications = s.notifications + 1 :=
  ⟨rfl, rfl, rfl⟩

/-- Claim C8: consuming a handle by wake does not release its share of the
waiter state — wake_waker leaves the Arc strong count unchanged (the function
ends with mem::forget), whereas drop_waker decrements it, so the share held by
a handle consumed by wake is leaked rather than released. -/
theorem wake_waker_leaks_share :
    (wake_waker { refcount := 1, woken := false, notifications := 0 }).refcount = 1 ∧
    (drop_waker { refcount := 1, woken := false, notifications := 0 }).refcount = 0 :=
  ⟨rfl, rfl⟩

/-- A poll of the counter future always writes the incremented (wrapped)
counter back, in both branches. -/
theorem helloFuture_poll_fst (f : HelloFuture) :
    (HelloFuture.poll f).1 = { count := (f.count + 1) % 2 ^ 32 } := by
  simp only [HelloFuture.poll]
  split <;> rfl

/-- Before the counter wraps, n polls from a fresh counter future leave the
count at exactly n. -/
theorem helloFuture_pollN_count :
    ∀ n : Nat, n < 2 ^ 32 → (HelloFuture.pollN HelloFuture.new n).count = n := by
  intro n
  induction n with
  | zero => intro _; rfl
  | succ k ih =>
    intro hn
    have hk := ih (by omega)
    simp only [HelloFuture.pollN, helloFuture_poll_fst, hk]
    omega

/-- Claim C9, counterexample: after 4294967295 polls the u32 counter holds its
maximal value; the next poll — the 4294967296-th, well past the second — wraps
the counter to 0 and returns Pending, not Ready "Hello". -/
theorem helloFuture_wraps :
    (HelloFuture.poll (HelloFuture.pollN HelloFuture.new (2 ^ 32 - 1))).2 = Poll.Pending ∧
    2 ≤ 2 ^ 32 := by
  constructor
  · have h := helloFuture_pollN_count (2 ^ 32 - 1) (by norm_num)
    simp only [HelloFuture.poll, h]
    norm_num
  · norm_num

/-- Claim C9, amended: starting from count 0, each poll increments the u32
counter by exactly one modulo 2 to the 32nd; the first poll returns Pending and
the n-th poll returns Ready "Hello" for every n from the second up to the point
where the counter wraps; polling never fails. -/
theorem helloFuture_poll_spec (n : Nat) (h2 : 2 ≤ n) (hlt : n < 2 ^ 32) :
    (∀ f : HelloFuture, (HelloFuture.poll f).1.count = (f.count + 1) % 2 ^ 32) ∧
    (HelloFuture.poll (HelloFuture.pollN HelloFuture.new 0)).2 = Poll.Pending ∧
    (HelloFuture.poll (HelloFuture.pollN HelloFuture.new (n - 1))).2 = Poll.Ready "Hello" := by
  refine ⟨fun f => by rw [helloFuture_poll_fst], by decide, ?_⟩
  have h : (HelloFuture.pollN HelloFuture.new (n - 1)).count = n - 1 :=
    helloFuture_pollN_count (n - 1) (by omega)
  have hc : ((HelloFuture.pollN HelloFuture.new (n - 1)).count + 1) % 2 ^ 32 = n := by
    rw [h]
    omega
  simp only [HelloFuture.poll, hc]
  rw [if_pos h2]

/-- Witness for C9 at n = 2: the second poll of a fresh counter future returns
Ready "Hello". -/
theorem helloFuture_poll_spec_witness :
    (HelloFuture.poll (HelloFuture.pollN HelloFuture.new (2 - 1))).2 = Poll.Ready "Hello" :=
  (helloFuture_poll_spec 2 (by norm_num) (by norm_num)).2.2

/-- Claim C10: polling a fresh coroutine in state Unresumed returns Ready 42 on
the very first poll — never Pending from that state — and moves the state to
Returned. -/
theorem coroutine_first_poll :
    SimpleCoroutine.poll SimpleCoroutine.Unresumed =
      Except.ok (SimpleCoroutine.Returned, Poll.Ready 42) :=
  rfl
